import Mathlib

/-!
Verification of the asynchronous byte-stream ingestion engine
(`io_comm_mosaic::AsyncManager` from
`include/rosaic/communication/async_manager.hpp`).

The C++ class owns a fixed-capacity receive buffer `in_` (a
`std::vector<uint8_t>` resized to `buffer_size` at construction), an
occupied-length counter `in_buffer_size_`, a `stopping_` flag, and an
optional consumer callback `read_callback_`.  The read loop is:
`doRead` issues `async_read_some` into the slice
`[in_buffer_size_, in_.size())`; its completion handler
`async_read_some_handler(error, bytes_transfered)` either reports a
transport error, or (when `bytes_transfered > 0`) advances
`in_buffer_size_`, invokes the callback with `(in_.data(), in_buffer_size_)`,
and notifies the condition variable; in all cases it re-posts `doRead`
unless `stopping_` is set.  `doClose` sets `stopping_` and closes the
stream, reporting (not raising) a close error.  `wait` performs a timed
wait on the condition variable and mutates no member.

We embed the engine shallowly: the byte buffer is a `List Nat`, the
handler and shutdown path are pure functions returning the successor
state together with an ordered trace of observable events (callback
invocations, condition-variable notification, error reports, re-armed
reads, transport close requests).  A whole read completion (transport
depositing a chunk into the requested slice, then the handler running)
is `readCompletion`, and `runChunks` folds a sequence of successful
completions, as a mock transport would drive them.
-/

namespace io_comm_mosaic

/-- Observable events emitted by the engine, in execution order:
`callback buf len` is an invocation of `read_callback_(in_.data(), in_buffer_size_)`
carrying the full buffer memory and the occupied length;
`signal` is `read_condition_.notify_all()`;
`reportError` is a `ROS_ERROR` report; `postRead` is
`io_service_->post(doRead)`; `closeTransport` is `stream_->close(error)`. -/
inductive Event where
  | callback (buf : List Nat) (len : Nat)
  | signal
  | reportError
  | postRead
  | closeTransport
  deriving DecidableEq, Repr

/-- The mutable member state of `AsyncManager` relevant to the claims:
`in_` is the receive buffer memory, `in_buffer_size` mirrors
`in_buffer_size_` (the occupied length), `stopping` mirrors `stopping_`,
and `hasCallback` records whether `read_callback_` is set. -/
structure AsyncManagerState where
  in_ : List Nat
  in_buffer_size : Nat
  stopping : Bool
  hasCallback : Bool
  deriving DecidableEq, Repr

/-- Deposit `chunk` into `buf` starting at position `pos`, overwriting in
place: models the transport writing `bytes_transfered` bytes into the
mutable region handed to `async_read_some`. -/
def writeAt (buf : List Nat) (pos : Nat) (chunk : List Nat) : List Nat :=
  buf.take pos ++ chunk ++ buf.drop (pos + chunk.length)

/-- The valid accumulated data: bytes `[0, in_buffer_size_)` of `in_`. -/
def validContents (s : AsyncManagerState) : List Nat :=
  s.in_.take s.in_buffer_size

/-- The buffer invariant `0 ≤ occupied_length ≤ capacity` (the lower
bound is inherent to `Nat`). -/
def bufferInvariant (s : AsyncManagerState) : Prop :=
  s.in_buffer_size ≤ s.in_.length

instance (s : AsyncManagerState) : Decidable (bufferInvariant s) :=
  inferInstanceAs (Decidable (_ ≤ _))

/-- The default `buffer_size` of the constructor declaration
(`std::size_t buffer_size = 8192`). -/
def defaultBufferSize : Nat := 8192

/-- Member state established by the constructor body:
`in_.resize(buffer_size)` (value-initialised to zero),
`in_buffer_size_ = 0`, `stopping_(false)`, and no callback registered
(`setCallback` is a separate call). -/
def mkAsyncManager (buffer_size : Nat) : AsyncManagerState :=
  { in_ := List.replicate buffer_size 0
    in_buffer_size := 0
    stopping := false
    hasCallback := false }

/-- Side-effecting actions the constructor performs, in order. -/
inductive ConstructAction where
  | allocBuffer (cap : Nat)
  | postReadTask
  | spawnWorker
  deriving DecidableEq, Repr

/-- Result of running the constructor: the member state plus the ordered
actions (allocate the buffer, `io_service_->post(doRead)`, then spawn the
single `callback_thread_` driving `io_service::run`). -/
structure ConstructResult where
  state : AsyncManagerState
  actions : List ConstructAction
  deriving DecidableEq, Repr

/-- The constructor `AsyncManager(stream, io_service, buffer_size)`:
sets the members, posts the first `doRead`, then spawns the worker
thread.  It never waits for data and registers no callback. -/
def construct (buffer_size : Nat) : ConstructResult :=
  { state := mkAsyncManager buffer_size
    actions := [ConstructAction.allocBuffer buffer_size,
                ConstructAction.postReadTask,
                ConstructAction.spawnWorker] }

/-- `setCallback`: `read_callback_ = callback`. -/
def setCallback (s : AsyncManagerState) : AsyncManagerState :=
  { s with hasCallback := true }

/-- The mutable byte range handed to `async_read_some`:
`boost::asio::buffer(in_.data() + in_buffer_size_, in_.size() - in_buffer_size_)`. -/
structure ReadRequest where
  start : Nat
  length : Nat
  deriving DecidableEq, Repr

/-- `doRead`: acquires the lock and issues `async_read_some` on the
destination slice; it mutates no member. -/
def doRead (s : AsyncManagerState) : AsyncManagerState × ReadRequest :=
  (s, { start := s.in_buffer_size, length := s.in_.length - s.in_buffer_size })

/-- `async_read_some_handler(error, bytes_transfered)`, translated
branch by branch:
if `error`, report it; else if `bytes_transfered > 0`, advance
`in_buffer_size_`, invoke the callback (if set) with
`(in_.data(), in_buffer_size_)`, then `notify_all`; else do nothing;
finally, if `!stopping_`, post `doRead` again. -/
def async_read_some_handler (s : AsyncManagerState) (error : Bool)
    (bytes_transfered : Nat) : AsyncManagerState × List Event :=
  if error then
    (s, [Event.reportError] ++ (if s.stopping then [] else [Event.postRead]))
  else if bytes_transfered > 0 then
    let s' := { s with in_buffer_size := s.in_buffer_size + bytes_transfered }
    (s', (if s.hasCallback then [Event.callback s'.in_ s'.in_buffer_size] else [])
          ++ [Event.signal]
          ++ (if s'.stopping then [] else [Event.postRead]))
  else
    (s, if s.stopping then [] else [Event.postRead])

/-- One whole read completion: the transport deposits `chunk` into the
requested slice (starting at `in_buffer_size_`), then the completion
handler runs with `bytes_transfered = chunk.length`. -/
def readCompletion (s : AsyncManagerState) (error : Bool)
    (chunk : List Nat) : AsyncManagerState × List Event :=
  async_read_some_handler
    { s with in_ := writeAt s.in_ s.in_buffer_size chunk } error chunk.length

/-- `doClose`: under the lock, set `stopping_ = true`, then
`stream_->close(error)`; a close error is reported, never raised. -/
def doClose (s : AsyncManagerState) (closeError : Bool) :
    AsyncManagerState × List Event :=
  ({ s with stopping := true },
   Event.closeTransport :: (if closeError then [Event.reportError] else []))

/-- `wait(timeout)`: a timed wait on `read_condition_`; it mutates no
member state. -/
def wait (s : AsyncManagerState) : AsyncManagerState := s

/-- A mock transport delivering the given byte chunks across successive
successful completions. -/
def runChunks (s : AsyncManagerState) (chunks : List (List Nat)) :
    AsyncManagerState × List Event :=
  match chunks with
  | [] => (s, [])
  | c :: cs =>
    let r := readCompletion s false c
    let r' := runChunks r.1 cs
    (r'.1, r.2 ++ r'.2)

/-- The callback invocations in a trace, each as (buffer, occupied length). -/
def callbackEvents (evs : List Event) : List (List Nat × Nat) :=
  evs.filterMap fun e =>
    match e with
    | Event.callback b n => some (b, n)
    | _ => none

/-- The occupied lengths observed at successive callback invocations. -/
def callbackLens (evs : List Event) : List Nat :=
  evs.filterMap fun e =>
    match e with
    | Event.callback _ n => some n
    | _ => none

/-! ### Helper lemmas about the buffer model -/

theorem length_writeAt (buf chunk : List Nat) (pos : Nat)
    (h : pos + chunk.length ≤ buf.length) :
    (writeAt buf pos chunk).length = buf.length := by
  simp [writeAt]
  omega

theorem writeAt_nil (buf : List Nat) (pos : Nat) :
    writeAt buf pos [] = buf := by
  simp [writeAt]

theorem take_writeAt (buf chunk : List Nat) (pos : Nat) (h : pos ≤ buf.length) :
    (writeAt buf pos chunk).take (pos + chunk.length) = buf.take pos ++ chunk := by
  have hlen : (buf.take pos).length = pos := by
    simp [List.length_take]
    omega
  calc (writeAt buf pos chunk).take (pos + chunk.length)
      = ((buf.take pos) ++ (chunk ++ buf.drop (pos + chunk.length))).take
          ((buf.take pos).length + chunk.length) := by
        rw [writeAt, List.append_assoc, hlen]
    _ = buf.take pos ++ (chunk ++ buf.drop (pos + chunk.length)).take chunk.length :=
        List.take_append chunk.length
    _ = buf.take pos ++ chunk := by rw [List.take_left]

theorem take_writeAt_prefix (buf chunk : List Nat) (pos : Nat)
    (h : pos ≤ buf.length) :
    (writeAt buf pos chunk).take pos = buf.take pos := by
  have hlen : (buf.take pos).length = pos := by
    simp [List.length_take]
    omega
  have h2 : pos ≤ (buf.take pos).length := le_of_eq hlen.symm
  rw [writeAt, List.append_assoc, List.take_append_of_le_length h2,
      List.take_take, Nat.min_self]

theorem readCompletion_false_pos (s : AsyncManagerState) (c : List Nat)
    (hc : 0 < c.length) :
    readCompletion s false c =
      ({ s with in_ := writeAt s.in_ s.in_buffer_size c
                in_buffer_size := s.in_buffer_size + c.length },
       (if s.hasCallback
        then [Event.callback (writeAt s.in_ s.in_buffer_size c)
                (s.in_buffer_size + c.length)]
        else []) ++ [Event.signal]
         ++ (if s.stopping then [] else [Event.postRead])) := by
  simp [readCompletion, async_read_some_handler, hc]

theorem readCompletion_false_zero (s : AsyncManagerState) :
    readCompletion s false [] =
      (s, if s.stopping then [] else [Event.postRead]) := by
  simp [readCompletion, async_read_some_handler, writeAt_nil]

theorem callbackLens_append (l₁ l₂ : List Event) :
    callbackLens (l₁ ++ l₂) = callbackLens l₁ ++ callbackLens l₂ := by
  simp [callbackLens]

theorem occ_readCompletion_false (s : AsyncManagerState) (c : List Nat) :
    (readCompletion s false c).1.in_buffer_size = s.in_buffer_size + c.length := by
  rcases Nat.eq_zero_or_pos c.length with hc | hc
  · rw [List.length_eq_zero.mp hc, readCompletion_false_zero]
    simp [hc, List.length_eq_zero.mp hc]
  · rw [readCompletion_false_pos s c hc]

theorem hasCallback_readCompletion_false (s : AsyncManagerState) (c : List Nat) :
    (readCompletion s false c).1.hasCallback = s.hasCallback := by
  rcases Nat.eq_zero_or_pos c.length with hc | hc
  · rw [List.length_eq_zero.mp hc, readCompletion_false_zero]
  · rw [readCompletion_false_pos s c hc]

theorem callbackLens_readCompletion_false (s : AsyncManagerState) (c : List Nat) :
    callbackLens (readCompletion s false c).2 =
      if 0 < c.length ∧ s.hasCallback = true
      then [s.in_buffer_size + c.length] else [] := by
  rcases Nat.eq_zero_or_pos c.length with hc | hc
  · rw [List.length_eq_zero.mp hc, readCompletion_false_zero]
    cases hstop : s.stopping <;> simp [callbackLens, hc, List.length_eq_zero.mp hc]
  · rw [readCompletion_false_pos s c hc]
    cases hcb : s.hasCallback <;> cases hstop : s.stopping <;>
      simp [callbackLens, hc]

theorem runChunks_lens_chain (chunks : List (List Nat)) (s : AsyncManagerState) :
    (∀ x ∈ callbackLens (runChunks s chunks).2, s.in_buffer_size ≤ x) ∧
    List.Chain' (· ≤ ·) (callbackLens (runChunks s chunks).2) := by
  induction chunks generalizing s with
  | nil => simp [runChunks, callbackLens]
  | cons c cs ih =>
    have hs : runChunks s (c :: cs) =
        ((runChunks (readCompletion s false c).1 cs).1,
         (readCompletion s false c).2 ++
           (runChunks (readCompletion s false c).1 cs).2) := rfl
    rw [hs]
    have hocc := occ_readCompletion_false s c
    have ihs := ih (readCompletion s false c).1
    rw [callbackLens_append, callbackLens_readCompletion_false]
    constructor
    · intro x hx
      rcases List.mem_append.mp hx with hx1 | hx2
      · rcases Nat.lt_or_ge 0 c.length with hc | hc
        · by_cases hcb : s.hasCallback = true
          · simp [hc, hcb] at hx1
            omega
          · simp [hcb] at hx1
        · simp [Nat.le_zero.mp hc] at hx1
      · have := ihs.1 x hx2
        omega
    · by_cases hcond : 0 < c.length ∧ s.hasCallback = true
      · rw [if_pos hcond]
        rw [List.singleton_append, List.chain'_cons']
        refine ⟨?_, ihs.2⟩
        intro b hb
        have hbmem : b ∈ callbackLens (runChunks (readCompletion s false c).1 cs).2 :=
          List.mem_of_mem_head? hb
        have := ihs.1 b hbmem
        omega
      · rw [if_neg hcond, List.nil_append]
        exact ihs.2

/-! ### Claim theorems -/

/-- C2: a read completion with `bytes_read == 0` and no transport error
leaves the state unchanged, invokes no consumer callback, and does not
signal the condition variable. -/
theorem zero_byte_completion_silent (s : AsyncManagerState) :
    (async_read_some_handler s false 0).1 = s ∧
    callbackEvents (async_read_some_handler s false 0).2 = [] ∧
    Event.signal ∉ (async_read_some_handler s false 0).2 := by
  refine ⟨rfl, ?_, ?_⟩ <;> cases hstop : s.stopping <;>
    simp [async_read_some_handler, callbackEvents, hstop]

/-- C2 witness at a concrete state. -/
theorem zero_byte_completion_silent_witness :
    (async_read_some_handler ⟨[7, 7], 1, false, true⟩ false 0).1 =
        ⟨[7, 7], 1, false, true⟩ ∧
    callbackEvents (async_read_some_handler ⟨[7, 7], 1, false, true⟩ false 0).2 = [] ∧
    Event.signal ∉ (async_read_some_handler ⟨[7, 7], 1, false, true⟩ false 0).2 :=
  zero_byte_completion_silent ⟨[7, 7], 1, false, true⟩

/-- C3: a read completion reporting a transport error reports the error
(no retry at this layer), does not advance `in_buffer_size_`, and still
re-posts the next `doRead` exactly when `stopping_` is not set. -/
theorem error_completion_reported_rearmed (s : AsyncManagerState) (bt : Nat) :
    Event.reportError ∈ (async_read_some_handler s true bt).2 ∧
    (async_read_some_handler s true bt).1.in_buffer_size = s.in_buffer_size ∧
    (Event.postRead ∈ (async_read_some_handler s true bt).2 ↔
      s.stopping = false) := by
  cases hstop : s.stopping <;> simp [async_read_some_handler, hstop]

/-- C3 witness at a concrete state. -/
theorem error_completion_reported_rearmed_witness :
    Event.reportError ∈ (async_read_some_handler ⟨[0, 0], 1, false, true⟩ true 5).2 ∧
    (async_read_some_handler ⟨[0, 0], 1, false, true⟩ true 5).1.in_buffer_size = 1 ∧
    (Event.postRead ∈ (async_read_some_handler ⟨[0, 0], 1, false, true⟩ true 5).2 ↔
      false = false) :=
  error_completion_reported_rearmed ⟨[0, 0], 1, false, true⟩ 5

/-- C5: `doClose` sets `stopping_`, requests the transport close, and a
close error is reported (execution continues past it — shutdown is not
aborted); and a whole read completion running from the post-`doClose`
state never re-posts `doRead`. -/
theorem shutdown_protocol (s : AsyncManagerState) (e : Bool) :
    (doClose s e).1.stopping = true ∧
    Event.closeTransport ∈ (doClose s e).2 ∧
    (e = true → Event.reportError ∈ (doClose s e).2) ∧
    (∀ (err : Bool) (chunk : List Nat),
      Event.postRead ∉ (readCompletion (doClose s e).1 err chunk).2) := by
  refine ⟨rfl, ?_, ?_, ?_⟩
  · cases e <;> simp [doClose]
  · intro he
    subst he
    simp [doClose]
  · intro err chunk
    have hstop : (doClose s e).1.stopping = true := rfl
    cases err with
    | true =>
      simp [readCompletion, async_read_some_handler, hstop]
    | false =>
      rcases Nat.eq_zero_or_pos chunk.length with hc | hc
      · rw [List.length_eq_zero.mp hc, readCompletion_false_zero]
        simp [hstop]
      · rw [readCompletion_false_pos _ _ hc]
        cases hcb : (doClose s e).1.hasCallback <;> simp [hstop, hcb]

/-- C5 witness at a concrete state. -/
theorem shutdown_protocol_witness :
    (doClose ⟨[0, 0], 0, false, true⟩ true).1.stopping = true ∧
    Event.closeTransport ∈ (doClose ⟨[0, 0], 0, false, true⟩ true).2 ∧
    (true = true → Event.reportError ∈ (doClose ⟨[0, 0], 0, false, true⟩ true).2) ∧
    (∀ (err : Bool) (chunk : List Nat),
      Event.postRead ∉
        (readCompletion (doClose ⟨[0, 0], 0, false, true⟩ true).1 err chunk).2) :=
  shutdown_protocol ⟨[0, 0], 0, false, true⟩ true

/-- C6: `doRead` mutates no member and issues a request targeting exactly
the slice `[in_buffer_size_, in_.size())`; once the buffer is full the
request has zero length, with no error raised and no reset. -/
theorem read_targets_remaining_slice (s : AsyncManagerState)
    (h : bufferInvariant s) :
    (doRead s).1 = s ∧
    (doRead s).2.start = s.in_buffer_size ∧
    (doRead s).2.start + (doRead s).2.length = s.in_.length ∧
    (s.in_buffer_size = s.in_.length → (doRead s).2.length = 0) := by
  unfold bufferInvariant at h
  refine ⟨rfl, rfl, ?_, ?_⟩ <;> simp [doRead] <;> omega

/-- C6 witness: a full buffer yields a zero-length request. -/
theorem read_targets_remaining_slice_witness :
    (doRead ⟨[3, 4], 2, false, true⟩).1 = ⟨[3, 4], 2, false, true⟩ ∧
    (doRead ⟨[3, 4], 2, false, true⟩).2.start = 2 ∧
    (doRead ⟨[3, 4], 2, false, true⟩).2.start +
      (doRead ⟨[3, 4], 2, false, true⟩).2.length = 2 ∧
    (2 = 2 → (doRead ⟨[3, 4], 2, false, true⟩).2.length = 0) := by
  have h := read_targets_remaining_slice ⟨[3, 4], 2, false, true⟩ (by decide)
  simpa using h

/-- C7: the constructor allocates the buffer at the requested capacity
(default 8192) zero-filled with `in_buffer_size_ = 0`, registers no
callback, is not stopping, and — in this order — allocates, posts the
first `doRead` task, then spawns exactly one worker thread. -/
theorem construction_contract (cap : Nat) :
    (construct cap).state.in_.length = cap ∧
    (construct cap).state.in_buffer_size = 0 ∧
    (construct cap).state.stopping = false ∧
    (construct cap).state.hasCallback = false ∧
    (construct cap).actions =
      [ConstructAction.allocBuffer cap, ConstructAction.postReadTask,
       ConstructAction.spawnWorker] ∧
    (construct cap).actions.count ConstructAction.spawnWorker = 1 ∧
    defaultBufferSize = 8192 := by
  refine ⟨?_, rfl, rfl, rfl, rfl, ?_, rfl⟩
  · simp [construct, mkAsyncManager]
  · simp [construct]

/-- C9: the shutdown path emits no condition-variable notification, so no
`wait` caller is woken by the transition to stopping. -/
theorem shutdown_never_signals (s : AsyncManagerState) (e : Bool) :
    Event.signal ∉ (doClose s e).2 ∧ wait (doClose s e).1 = (doClose s e).1 := by
  cases e <;> simp [doClose, wait]

/-- C10: the error branch takes precedence over the byte count: an error
completion leaves the member state untouched, invokes no callback and
raises no signal even when `bytes_transfered > 0`; at the level of a
whole completion, any bytes the transport deposited alongside the error
are discarded — the valid contents and occupied length are unchanged. -/
theorem error_branch_discards_bytes (s : AsyncManagerState) (bt : Nat)
    (chunk : List Nat) (hinv : bufferInvariant s) :
    (async_read_some_handler s true bt).1 = s ∧
    callbackEvents (async_read_some_handler s true bt).2 = [] ∧
    Event.signal ∉ (async_read_some_handler s true bt).2 ∧
    validContents (readCompletion s true chunk).1 = validContents s ∧
    (readCompletion s true chunk).1.in_buffer_size = s.in_buffer_size := by
  unfold bufferInvariant at hinv
  refine ⟨rfl, ?_, ?_, ?_, rfl⟩
  · cases hstop : s.stopping <;>
      simp [async_read_some_handler, callbackEvents, hstop]
  · cases hstop : s.stopping <;> simp [async_read_some_handler, hstop]
  · show (writeAt s.in_ s.in_buffer_size chunk).take s.in_buffer_size =
      s.in_.take s.in_buffer_size
    exact take_writeAt_prefix s.in_ chunk s.in_buffer_size hinv

/-- C10 witness: an error completion carrying two bytes discards them. -/
theorem error_branch_discards_bytes_witness :
    (async_read_some_handler ⟨[9, 0, 0], 1, false, true⟩ true 2).1 =
        ⟨[9, 0, 0], 1, false, true⟩ ∧
    callbackEvents (async_read_some_handler ⟨[9, 0, 0], 1, false, true⟩ true 2).2 = [] ∧
    Event.signal ∉ (async_read_some_handler ⟨[9, 0, 0], 1, false, true⟩ true 2).2 ∧
    validContents (readCompletion ⟨[9, 0, 0], 1, false, true⟩ true [5, 6]).1 =
      validContents ⟨[9, 0, 0], 1, false, true⟩ ∧
    (readCompletion ⟨[9, 0, 0], 1, false, true⟩ true [5, 6]).1.in_buffer_size = 1 :=
  error_branch_discards_bytes ⟨[9, 0, 0], 1, false, true⟩ 2 [5, 6] (by decide)

/-- C8 counterexample: running the shutdown path a second time requests
the transport close again — `doClose` calls `stream_->close` without
checking whether `stopping_` is already set. -/
theorem doClose_twice_closes_transport_again :
    Event.closeTransport ∈ (doClose (doClose (mkAsyncManager 4) false).1 false).2 := by
  decide

/-- C8 amended: a second run of the shutdown path leaves the engine state
unchanged (`stopping_` is already set) and any close error is reported,
not raised; the transport close is, however, requested again. -/
theorem doClose_second_run_state_noop (s : AsyncManagerState) (e1 e2 : Bool) :
    (doClose (doClose s e1).1 e2).1 = (doClose s e1).1 ∧
    Event.closeTransport ∈ (doClose (doClose s e1).1 e2).2 ∧
    (e2 = true → Event.reportError ∈ (doClose (doClose s e1).1 e2).2) := by
  refine ⟨rfl, ?_, ?_⟩
  · cases e2 <;> simp [doClose]
  · intro he
    subst he
    simp [doClose]

/-- C8 amended witness at a concrete state. -/
theorem doClose_second_run_state_noop_witness :
    (doClose (doClose (mkAsyncManager 2) false).1 true).1 =
        (doClose (mkAsyncManager 2) false).1 ∧
    Event.closeTransport ∈ (doClose (doClose (mkAsyncManager 2) false).1 true).2 ∧
    (true = true →
      Event.reportError ∈ (doClose (doClose (mkAsyncManager 2) false).1 true).2) :=
  doClose_second_run_state_noop (mkAsyncManager 2) false true

/-- C1: a successful completion (`bytes_read > 0`, no error) advances
`in_buffer_size_` by `bytes_read` and, when a callback is registered,
invokes it exactly once with the whole buffer and the new occupied
length, signalling the condition variable only after the callback; for a
mock transport delivering chunks `[A, B, C]`, the callback fires exactly
three times with occupied lengths `|A|`, `|A|+|B|`, `|A|+|B|+|C|` and
the valid buffer contents equal to the concatenation so far. -/
theorem successful_completion_callback_fidelity :
    (∀ (s : AsyncManagerState) (bt : Nat), 0 < bt → s.hasCallback = true →
      (async_read_some_handler s false bt).1.in_buffer_size =
          s.in_buffer_size + bt ∧
      (async_read_some_handler s false bt).2 =
        Event.callback s.in_ (s.in_buffer_size + bt) :: Event.signal ::
          (if s.stopping then [] else [Event.postRead])) ∧
    (∀ (cap : Nat) (A B C : List Nat), A ≠ [] → B ≠ [] → C ≠ [] →
      A.length + B.length + C.length ≤ cap →
      ∃ b1 b2 b3 : List Nat,
        (runChunks (setCallback (mkAsyncManager cap)) [A, B, C]).2 =
          [Event.callback b1 A.length, Event.signal, Event.postRead,
           Event.callback b2 (A.length + B.length), Event.signal, Event.postRead,
           Event.callback b3 (A.length + B.length + C.length), Event.signal,
           Event.postRead] ∧
        b1.take A.length = A ∧
        b2.take (A.length + B.length) = A ++ B ∧
        b3.take (A.length + B.length + C.length) = A ++ B ++ C) := by
  constructor
  · intro s bt hbt hcb
    constructor
    · simp [async_read_some_handler, hbt]
    · simp [async_read_some_handler, hbt, hcb]
  · intro cap A B C hA hB hC hcap
    have hA' : 0 < A.length := List.length_pos.mpr hA
    have hB' : 0 < B.length := List.length_pos.mpr hB
    have hC' : 0 < C.length := List.length_pos.mpr hC
    have t1 : (writeAt (List.replicate cap 0) 0 A).take A.length = A := by
      have h := take_writeAt (List.replicate cap 0) A 0 (by simp)
      simpa using h
    have hl1 : (writeAt (List.replicate cap 0) 0 A).length = cap := by
      have h := length_writeAt (List.replicate cap 0) A 0
        (by simp; omega)
      simpa using h
    have t2 : (writeAt (writeAt (List.replicate cap 0) 0 A) A.length B).take
        (A.length + B.length) = A ++ B := by
      have h := take_writeAt (writeAt (List.replicate cap 0) 0 A) B A.length
        (by rw [hl1]; omega)
      rw [t1] at h
      exact h
    have hl2 : (writeAt (writeAt (List.replicate cap 0) 0 A) A.length B).length =
        cap := by
      have h := length_writeAt (writeAt (List.replicate cap 0) 0 A) B A.length
        (by rw [hl1]; omega)
      rw [hl1] at h
      exact h
    have t3 : (writeAt (writeAt (writeAt (List.replicate cap 0) 0 A) A.length B)
        (A.length + B.length) C).take (A.length + B.length + C.length) =
        A ++ B ++ C := by
      have h := take_writeAt (writeAt (writeAt (List.replicate cap 0) 0 A) A.length B)
        C (A.length + B.length) (by rw [hl2]; omega)
      rw [t2] at h
      exact h
    have e1 : readCompletion (⟨List.replicate cap 0, 0, false, true⟩ :
        AsyncManagerState) false A =
        (⟨writeAt (List.replicate cap 0) 0 A, A.length, false, true⟩,
         [Event.callback (writeAt (List.replicate cap 0) 0 A) A.length,
          Event.signal, Event.postRead]) := by
      rw [readCompletion_false_pos _ _ hA']
      simp
    have e2 : readCompletion (⟨writeAt (List.replicate cap 0) 0 A,
        A.length, false, true⟩ : AsyncManagerState) false B =
        (⟨writeAt (writeAt (List.replicate cap 0) 0 A) A.length B,
          A.length + B.length, false, true⟩,
         [Event.callback (writeAt (writeAt (List.replicate cap 0) 0 A) A.length B)
            (A.length + B.length), Event.signal, Event.postRead]) := by
      rw [readCompletion_false_pos _ _ hB']
      simp
    have e3 : readCompletion (⟨writeAt (writeAt (List.replicate cap 0) 0 A)
        A.length B, A.length + B.length, false, true⟩ : AsyncManagerState)
        false C =
        (⟨writeAt (writeAt (writeAt (List.replicate cap 0) 0 A) A.length B)
            (A.length + B.length) C,
          A.length + B.length + C.length, false, true⟩,
         [Event.callback (writeAt (writeAt (writeAt (List.replicate cap 0) 0 A)
              A.length B) (A.length + B.length) C)
            (A.length + B.length + C.length), Event.signal, Event.postRead]) := by
      rw [readCompletion_false_pos _ _ hC']
      simp
    refine ⟨writeAt (List.replicate cap 0) 0 A,
      writeAt (writeAt (List.replicate cap 0) 0 A) A.length B,
      writeAt (writeAt (writeAt (List.replicate cap 0) 0 A) A.length B)
        (A.length + B.length) C, ?_, t1, t2, t3⟩
    have hs0 : setCallback (mkAsyncManager cap) =
        (⟨List.replicate cap 0, 0, false, true⟩ : AsyncManagerState) := rfl
    rw [hs0]
    simp [runChunks, e1, e2, e3]

/-- C1 witness: three concrete chunks through a fresh engine of capacity 8. -/
theorem successful_completion_callback_fidelity_witness :
    ∃ b1 b2 b3 : List Nat,
      (runChunks (setCallback (mkAsyncManager 8)) [[1], [2, 3], [4]]).2 =
        [Event.callback b1 1, Event.signal, Event.postRead,
         Event.callback b2 3, Event.signal, Event.postRead,
         Event.callback b3 4, Event.signal, Event.postRead] ∧
      b1.take 1 = [1] ∧
      b2.take 3 = [1] ++ [2, 3] ∧
      b3.take 4 = [1] ++ [2, 3] ++ [4] :=
  successful_completion_callback_fidelity.2 8 [1] [2, 3] [4]
    (by decide) (by decide) (by decide) (by decide)

/-- C4: the buffer invariant `in_buffer_size_ ≤ in_.size()` holds after
construction, after any whole read completion whose chunk fits the
requested slice, after shutdown and after `wait`; `in_buffer_size_` never
decreases across the handler, and the occupied lengths observed at
successive callback invocations are non-decreasing. -/
theorem buffer_invariant_and_monotonicity :
    (∀ cap, bufferInvariant (mkAsyncManager cap)) ∧
    (∀ (s : AsyncManagerState) (err : Bool) (chunk : List Nat),
      bufferInvariant s → chunk.length ≤ s.in_.length - s.in_buffer_size →
      bufferInvariant (readCompletion s err chunk).1) ∧
    (∀ (s : AsyncManagerState) (e : Bool),
      bufferInvariant s → bufferInvariant (doClose s e).1) ∧
    (∀ (s : AsyncManagerState), bufferInvariant s → bufferInvariant (wait s)) ∧
    (∀ (s : AsyncManagerState) (err : Bool) (bt : Nat),
      s.in_buffer_size ≤ (async_read_some_handler s err bt).1.in_buffer_size) ∧
    (∀ (s : AsyncManagerState) (chunks : List (List Nat)),
      List.Chain' (· ≤ ·) (callbackLens (runChunks s chunks).2)) := by
  refine ⟨?_, ?_, ?_, ?_, ?_, ?_⟩
  · intro cap
    simp [bufferInvariant, mkAsyncManager]
  · intro s err chunk hinv hfit
    unfold bufferInvariant at hinv ⊢
    have hfit' : s.in_buffer_size + chunk.length ≤ s.in_.length := by omega
    have hlen : (writeAt s.in_ s.in_buffer_size chunk).length = s.in_.length :=
      length_writeAt s.in_ chunk s.in_buffer_size hfit'
    cases err with
    | true =>
      show s.in_buffer_size ≤ (writeAt s.in_ s.in_buffer_size chunk).length
      omega
    | false =>
      rcases Nat.eq_zero_or_pos chunk.length with hc | hc
      · rw [List.length_eq_zero.mp hc, readCompletion_false_zero]
        exact hinv
      · rw [readCompletion_false_pos _ _ hc]
        show s.in_buffer_size + chunk.length ≤
          (writeAt s.in_ s.in_buffer_size chunk).length
        omega
  · intro s e hinv
    exact hinv
  · intro s hinv
    exact hinv
  · intro s err bt
    cases err with
    | true => simp [async_read_some_handler]
    | false =>
      rcases Nat.eq_zero_or_pos bt with hb | hb
      · subst hb
        simp [async_read_some_handler]
      · simp [async_read_some_handler, hb]
  · intro s chunks
    exact (runChunks_lens_chain chunks s).2

/-- C4 witness: the invariant survives a concrete fitting completion. -/
theorem buffer_invariant_and_monotonicity_witness :
    bufferInvariant (readCompletion ⟨[7, 0, 0], 1, false, true⟩ false [5]).1 :=
  buffer_invariant_and_monotonicity.2.1 ⟨[7, 0, 0], 1, false, true⟩ false [5]
    (by decide) (by decide)

end io_comm_mosaic
